import Mathlib

/-!
Shallow embedding of the Raft replication core of the repository
(`src/src/raft/raft.rs`).  Pure data is modelled with `Nat`/`List`;
the datastore and outbound channels are modelled as always-succeeding
(the spec treats store errors as transient and environmental), so the
only fallible operations are log/map lookups, and the only panics are
`Option::unwrap` calls.  Each handler returns the post-state, the
outbound messages it sent, the payloads it emitted on the commits
stream, and a status: `ok`, `err` (a `?` error bubbled up; mutations
made before the error persist, as in the source where the select loop
logs the error and continues), or `panicked` (an `unwrap` on `None`).
-/

namespace Darkfi

abbrev NodeId := Nat
abbrev Payload := List Nat

/-- A log entry, `Log { msg, term }` in the source. -/
structure Log where
  term : Nat
  msg : Payload
deriving DecidableEq, Repr

inductive Role where
  | Follower
  | Candidate
  | Leader
deriving DecidableEq, Repr

/-- Modelled from the spec (§4.2): `Logs::slice_from(i)` returns the suffix
starting at index `i` (empty if `i == len`, absent if `i > len`); the `Logs`
newtype itself is not under `src/`. -/
def sliceFrom (l : List Log) (i : Nat) : Option (List Log) :=
  if i ≤ l.length then some (l.drop i) else none

/-- Modelled from the spec (§4.2): `Logs::slice_to(i)` returns the prefix of
length `i`. -/
def sliceTo (l : List Log) (i : Nat) : List Log :=
  l.take i

/-- Modelled from the spec (§4.2): `Logs::get(i)`; bounds violations are
errors (`none` here). -/
def logGet (l : List Log) (i : Nat) : Option Log :=
  l.get? i

/-- Modelled from the spec (§3): `MapLength` is a map `NodeId → u64`;
`get` on a missing key is an error (`none` here). -/
abbrev MapLength := List (NodeId × Nat)

def mapGet (m : MapLength) (k : NodeId) : Option Nat :=
  m.lookup k

def mapInsert (m : MapLength) (k : NodeId) (v : Nat) : MapLength :=
  (k, v) :: m.eraseP (fun p => p.1 == k)

structure VoteRequest where
  node_id : NodeId
  current_term : Nat
  log_length : Nat
  last_term : Nat
deriving DecidableEq, Repr

structure VoteResponse where
  node_id : NodeId
  current_term : Nat
  ok : Bool
deriving DecidableEq, Repr

structure LogRequest where
  leader_id : NodeId
  current_term : Nat
  prefix_len : Nat
  prefix_term : Nat
  commit_length : Nat
  suffix : List Log
deriving DecidableEq, Repr

structure LogResponse where
  node_id : NodeId
  current_term : Nat
  ack : Nat
  ok : Bool
deriving DecidableEq, Repr

/-- An outbound `NetMsg` after decoding: recipient tag plus typed body. -/
inductive OutMsg where
  | voteReq (recipient : Option NodeId) (m : VoteRequest)
  | voteResp (recipient : Option NodeId) (m : VoteResponse)
  | logReq (recipient : Option NodeId) (m : LogRequest)
  | logResp (recipient : Option NodeId) (m : LogResponse)
  | bcastReq (recipient : Option NodeId) (m : Payload)
deriving DecidableEq, Repr

/-- The fields of `Raft<T>` that the handlers read and write.  The peer
registry (`nodes: Arc<Mutex<HashMap<NodeId, SocketAddr>>>`) is modelled as
the list of its keys, a point-in-time snapshot; addresses are irrelevant to
the handlers, which only count peers and key the length maps. -/
structure RaftState where
  id : Option NodeId
  current_term : Nat
  voted_for : Option NodeId
  logs : List Log
  commit_length : Nat
  role : Role
  current_leader : Option NodeId
  votes_received : List NodeId
  sent_length : MapLength
  acked_length : MapLength
  nodes : List NodeId
  last_term : Nat
deriving DecidableEq, Repr

inductive Status where
  | ok
  | err
  | panicked
deriving DecidableEq, Repr

/-- Result of running one handler: post-state, outbound messages, payloads
emitted on the commits stream, and how the handler finished.  On
`panicked` the other fields are meaningless (the process dies). -/
structure HOut where
  st : RaftState
  msgs : List OutMsg
  emitted : List Payload
  status : Status
deriving DecidableEq, Repr

def U64 : Nat := 18446744073709551616

/-- u64 wrapping subtraction: release-profile semantics of `a - b` on `u64`
in the source. -/
def wsub (a b : Nat) : Nat :=
  if b ≤ a then a - b else a + U64 - b

/-- `reset_last_term`: term of the last log entry, or 0 when the log is
empty. -/
def lastTermOf (l : List Log) : Nat :=
  match l.getLast? with
  | some e => e.term
  | none => 0

def reset_last_term (s : RaftState) : RaftState :=
  { s with last_term := lastTermOf s.logs }

/-- `push_log`: append one entry (the datastore insert always succeeds in
the model). -/
def push_log (s : RaftState) (e : Log) : RaftState :=
  { s with logs := s.logs ++ [e] }

/-- `push_logs`: wholesale replacement of the log. -/
def push_logs (s : RaftState) (l : List Log) : RaftState :=
  { s with logs := l }

/-- `index = min(logs.len(), prefix_len + suffix.len()) - 1`, the position
`append_log` compares for a term conflict. -/
def truncateIndex (len plen slen : Nat) : Nat :=
  min len (plen + slen) - 1

/-- The truncation step of `append_log`: on a term conflict at
`truncateIndex` the log is cut back to its first `prefix_len` entries. -/
def truncateStep (s : RaftState) (prefix_len : Nat) (suffix : List Log) :
    RaftState × Status :=
  if suffix ≠ [] ∧ s.logs.length > prefix_len then
    match logGet s.logs (truncateIndex s.logs.length prefix_len suffix.length),
        logGet suffix
          (truncateIndex s.logs.length prefix_len suffix.length - prefix_len) with
    | some a, some b =>
      if a.term ≠ b.term then (push_logs s (sliceTo s.logs prefix_len), .ok)
      else (s, .ok)
    | _, _ => (s, .err)
  else (s, .ok)

/-- The body of `for i in start..stop { push_log(suffix.get(i)?) }`:
returns the entries pushed before any error.  Structural recursion on the
iteration count `stop - i`. -/
def pushSuffixGo (suffix : List Log) (i : Nat) : Nat → List Log × Status
  | 0 => ([], .ok)
  | count + 1 =>
    match logGet suffix i with
    | some e =>
      let r := pushSuffixGo suffix (i + 1) count
      (e :: r.1, r.2)
    | none => ([], .err)

/-- The append step of `append_log`:
`for i in (logs.len() - prefix_len)..(suffix.len() - 1)` — both bounds with
u64 wrapping subtraction. -/
def appendStep (s : RaftState) (prefix_len : Nat) (suffix : List Log) :
    RaftState × Status :=
  if prefix_len + suffix.length > s.logs.length then
    let start := wsub s.logs.length prefix_len
    let stop := wsub suffix.length 1
    let r := pushSuffixGo suffix start (stop - start)
    ({ s with logs := s.logs ++ r.1 }, r.2)
  else (s, .ok)

/-- The body of `for i in lo..stop { push_commit(logs.get(i)?.msg) }`:
payloads sent on the commits channel before any error (channel sends that
happened before the error are not undone). -/
def pushCommitGo (logs : List Log) (i : Nat) : Nat → List Payload × Status
  | 0 => ([], .ok)
  | count + 1 =>
    match logGet logs i with
    | some e =>
      let r := pushCommitGo logs (i + 1) count
      (e.msg :: r.1, r.2)
    | none => ([], .err)

/-- The commit step of `append_log`: when `leader_commit > commit_length`,
emit payloads for `i in commit_length..(leader_commit - 1)` and then set
`commit_length := leader_commit` (only if the loop finished without
error). -/
def commitStep (s : RaftState) (leader_commit : Nat) :
    RaftState × List Payload × Status :=
  if leader_commit > s.commit_length then
    match pushCommitGo s.logs s.commit_length
        (wsub leader_commit 1 - s.commit_length) with
    | (ps, Status.ok) => ({ s with commit_length := leader_commit }, ps, .ok)
    | (ps, st) => (s, ps, st)
  else (s, [], .ok)

/-- `Raft::append_log(prefix_len, leader_commit, suffix)`. -/
def append_log (s : RaftState) (prefix_len leader_commit : Nat)
    (suffix : List Log) : HOut :=
  match truncateStep s prefix_len suffix with
  | (s1, Status.ok) =>
    match appendStep s1 prefix_len suffix with
    | (s2, Status.ok) =>
      match commitStep s2 leader_commit with
      | (s3, emitted, st) => ⟨s3, [], emitted, st⟩
    | (s2, st) => ⟨s2, [], [], st⟩
  | (s1, st) => ⟨s1, [], [], st⟩

/-- The prefix check of `receive_log_request`, on the state after term
adoption: `logs.len() ≥ prefix_len && (prefix_len == 0 ||
logs.get(prefix_len - 1)?.term == prefix_term)` (the `&&`/`||`
short-circuit means the `get` is only reached in-bounds, so it never
errors). -/
def prefixOk (logs : List Log) (lr : LogRequest) : Bool :=
  decide (logs.length ≥ lr.prefix_len) &&
    (decide (lr.prefix_len = 0) ||
      match logGet logs (lr.prefix_len - 1) with
      | some e => decide (e.term = lr.prefix_term)
      | none => false)

/-- The tail of `receive_log_request`: listeners send no reply; otherwise a
`LogResponse` with the given ack and prefix-check result goes back to the
leader. -/
def logReplyTo (s : RaftState) (leader : NodeId) (emitted : List Payload)
    (ack : Nat) (ok : Bool) : HOut :=
  match s.id with
  | none => ⟨s, [], emitted, .ok⟩
  | some selfId =>
    ⟨s, [.logResp (some leader) ⟨selfId, s.current_term, ack, ok⟩],
      emitted, .ok⟩

/-- The accepted branch of `receive_log_request`: run `append_log` and set
`ack := prefix_len + suffix.len()`; a `?` error from `append_log` returns
before any reply is sent. -/
def acceptLog (s : RaftState) (lr : LogRequest) (ok : Bool) : HOut :=
  match append_log s lr.prefix_len lr.commit_length lr.suffix with
  | ⟨s3, _, emitted, Status.ok⟩ =>
    logReplyTo s3 lr.leader_id emitted (lr.prefix_len + lr.suffix.length) ok
  | ⟨s3, _, emitted, st⟩ => ⟨s3, [], emitted, st⟩

/-- `Raft::receive_log_request`. -/
def receive_log_request (s : RaftState) (lr : LogRequest) : HOut :=
  let s1 :=
    if lr.current_term > s.current_term then
      { s with current_term := lr.current_term, voted_for := none }
    else s
  let s2 :=
    if lr.current_term = s1.current_term then
      { s1 with role := .Follower, current_leader := some lr.leader_id }
    else s1
  let ok := prefixOk s2.logs lr
  if lr.current_term = s2.current_term ∧ ok = true then acceptLog s2 lr ok
  else logReplyTo s2 lr.leader_id [] 0 ok

/-- `Raft::update_logs(node_id)`: build and send one `LogRequest`.  The
source evaluates `sent_length.get(node_id)?` first, then `slice_from`
(returning early when absent), then `prefix_term`, and only then unwraps
`self.id` while building the request, so a missing map entry errors before
the unwrap can panic. -/
def prefixTermOf (logs : List Log) (plen : Nat) : Option Nat :=
  if plen > 0 then (logGet logs (plen - 1)).map (·.term) else some 0

def update_logs (s : RaftState) (node_id : NodeId) : HOut :=
  match mapGet s.sent_length node_id with
  | none => ⟨s, [], [], .err⟩
  | some plen =>
    match sliceFrom s.logs plen with
    | none => ⟨s, [], [], .ok⟩
    | some suffix =>
      match prefixTermOf s.logs plen with
      | none => ⟨s, [], [], .err⟩
      | some pterm =>
        match s.id with
        | none => ⟨s, [], [], .panicked⟩
        | some selfId =>
          ⟨s,
            [.logReq (some node_id)
              ⟨selfId, s.current_term, plen, pterm, s.commit_length, suffix⟩],
            [], .ok⟩

/-- `for node in nodes.iter() { f(node)? }` with `?`-propagation: stops at
the first non-ok result, keeping the state and outputs produced so far. -/
def forNodes (s : RaftState) (ns : List NodeId)
    (f : RaftState → NodeId → HOut) : HOut :=
  match ns with
  | [] => ⟨s, [], [], .ok⟩
  | n :: rest =>
    match f s n with
    | ⟨s', msgs, em, Status.ok⟩ =>
      match forNodes s' rest f with
      | ⟨s'', msgs2, em2, st⟩ => ⟨s'', msgs ++ msgs2, em ++ em2, st⟩
    | r => r

/-- `Raft::receive_vote_request`.  Listeners return immediately; otherwise
a `VoteResponse` carrying the (possibly adopted) current term is always
sent to the candidate, with `ok = true` exactly on grant. -/
def receive_vote_request (s : RaftState) (vr : VoteRequest) : HOut :=
  match s.id with
  | none => ⟨s, [], [], .ok⟩
  | some selfId =>
    let s :=
      if vr.current_term > s.current_term then
        { s with current_term := vr.current_term, voted_for := none,
                 role := .Follower }
      else s
    let s := reset_last_term s
    let vote_ok : Bool :=
      decide (vr.last_term > s.last_term ∨
        (vr.last_term = s.last_term ∧ vr.log_length ≥ s.logs.length))
    let vote : Bool :=
      match s.voted_for with
      | some v => decide (v = vr.node_id)
      | none => true
    let grant : Bool := decide (vr.current_term = s.current_term) && vote_ok && vote
    let respTerm := s.current_term
    let s := if grant then { s with voted_for := some vr.node_id } else s
    ⟨s, [.voteResp (some vr.node_id) ⟨selfId, respTerm, grant⟩], [], .ok⟩

/-- Per-node body of the become-leader loop in `receive_vote_response`:
`sent_length.insert(node, logs.len()); acked_length.insert(node, 0);
update_logs(node)?`. -/
def leaderInitNode (s : RaftState) (n : NodeId) : HOut :=
  let s :=
    { s with sent_length := mapInsert s.sent_length n s.logs.length,
             acked_length := mapInsert s.acked_length n 0 }
  update_logs s n

/-- `Raft::receive_vote_response`. -/
def receive_vote_response (s : RaftState) (vr : VoteResponse) : HOut :=
  if s.role = .Candidate ∧ vr.current_term = s.current_term ∧ vr.ok = true then
    let s := { s with votes_received := s.votes_received ++ [vr.node_id] }
    if s.votes_received.length ≥ (s.nodes.length + 1) / 2 then
      match s.id with
      | none => ⟨s, [], [], .panicked⟩
      | some selfId =>
        let s := { s with role := .Leader, current_leader := some selfId }
        forNodes s s.nodes leaderInitNode
    else ⟨s, [], [], .ok⟩
  else if vr.current_term > s.current_term then
    ⟨{ s with current_term := vr.current_term, role := .Follower,
              voted_for := none }, [], [], .ok⟩
  else ⟨s, [], [], .ok⟩

/-- `Raft::acks(nodes, length)`: the peers of the snapshot whose
`acked_length` is known and at least `length`. -/
def acks (s : RaftState) (nodes : List NodeId) (length : Nat) : List NodeId :=
  nodes.filter (fun n =>
    match mapGet s.acked_length n with
    | some l => decide (l ≥ length)
    | none => false)

/-- `Raft::commit_log`: leader-side commit advancement.  `ready` collects
the `enumerate()` indices `i` of log entries with a quorum of acks at
threshold `i`. -/
def commit_log (s : RaftState) : HOut :=
  let min_acks := (s.nodes.length + 1) / 2
  let nodes := s.nodes
  let ready := (List.range s.logs.length).filter
    (fun i => decide ((acks s nodes i).length ≥ min_acks))
  match ready.max? with
  | none => ⟨s, [], [], .ok⟩
  | some max_ready =>
    if max_ready > s.commit_length then
      match logGet s.logs (max_ready - 1) with
      | none => ⟨s, [], [], .err⟩
      | some e =>
        if e.term = s.current_term then
          match pushCommitGo s.logs s.commit_length
              (wsub max_ready 1 - s.commit_length) with
          | (ps, Status.ok) => ⟨{ s with commit_length := max_ready }, [], ps, .ok⟩
          | (ps, st) => ⟨s, [], ps, st⟩
        else ⟨s, [], [], .ok⟩
    else ⟨s, [], [], .ok⟩

/-- `Raft::receive_log_response`.  The `lr.ok && lr.ack >= acked.get(..)?`
condition short-circuits: the `acked_length` lookup only runs when
`lr.ok`. -/
def receive_log_response (s : RaftState) (lr : LogResponse) : HOut :=
  if lr.current_term = s.current_term ∧ s.role = .Leader then
    let cond : Option Bool :=
      if lr.ok then (mapGet s.acked_length lr.node_id).map
        (fun a => decide (lr.ack ≥ a))
      else some false
    match cond with
    | none => ⟨s, [], [], .err⟩
    | some true =>
      let s :=
        { s with sent_length := mapInsert s.sent_length lr.node_id lr.ack,
                 acked_length := mapInsert s.acked_length lr.node_id lr.ack }
      commit_log s
    | some false =>
      match mapGet s.sent_length lr.node_id with
      | none => ⟨s, [], [], .err⟩
      | some sent =>
        if sent > 0 then
          let s :=
            { s with sent_length := mapInsert s.sent_length lr.node_id (sent - 1) }
          update_logs s lr.node_id
        else ⟨s, [], [], .ok⟩
  else if lr.current_term > s.current_term then
    ⟨{ s with current_term := lr.current_term, role := .Follower,
              voted_for := none }, [], [], .ok⟩
  else ⟨s, [], [], .ok⟩

/-- `Raft::broadcast_msg`: leader appends locally, records its own ack at
the new log length, and sends a log update to every peer; a non-leader
forwards the payload to `current_leader` as a `BroadcastRequest`. -/
def broadcast_msg (s : RaftState) (msg : Payload) : HOut :=
  if s.role = .Leader then
    let s := push_log s ⟨s.current_term, msg⟩
    match s.id with
    | none => ⟨s, [], [], .panicked⟩
    | some selfId =>
      let s := { s with acked_length := mapInsert s.acked_length selfId s.logs.length }
      forNodes s s.nodes (fun s n => update_logs s n)
  else
    ⟨s, [.bcastReq s.current_leader msg], [], .ok⟩

/-- `Raft::send_heartbeat`: a leader sends a log update to every peer. -/
def send_heartbeat (s : RaftState) : HOut :=
  if s.role = .Leader then forNodes s s.nodes (fun s n => update_logs s n)
  else ⟨s, [], [], .ok⟩

/-- `Raft::send_vote_request`: start an election, unless self is a
listener. -/
def send_vote_request (s : RaftState) : HOut :=
  match s.id with
  | none => ⟨s, [], [], .ok⟩
  | some selfId =>
    let s :=
      { s with current_term := s.current_term + 1, role := .Candidate,
               voted_for := some selfId,
               votes_received := s.votes_received ++ [selfId] }
    let s := reset_last_term s
    ⟨s, [.voteReq none ⟨selfId, s.current_term, s.logs.length, s.last_term⟩],
      [], .ok⟩

/-- One iteration of the select loop in `Raft::start`: an inbound typed
message, an application submission (directly or via an inbound
`BroadcastRequest`), or a timer expiry. -/
inductive Event where
  | voteReq (m : VoteRequest)
  | voteResp (m : VoteResponse)
  | logReq (m : LogRequest)
  | logResp (m : LogResponse)
  | submit (p : Payload)
  | timer
deriving DecidableEq, Repr

def step (s : RaftState) : Event → HOut
  | .voteReq m => receive_vote_request s m
  | .voteResp m => receive_vote_response s m
  | .logReq m => receive_log_request s m
  | .logResp m => receive_log_response s m
  | .submit p => broadcast_msg s p
  | .timer =>
    if s.role = .Leader then send_heartbeat s else send_vote_request s

/-- The term carried by an inbound protocol message. -/
def eventTerm : Event → Option Nat
  | .voteReq m => some m.current_term
  | .voteResp m => some m.current_term
  | .logReq m => some m.current_term
  | .logResp m => some m.current_term
  | .submit _ => none
  | .timer => none

/-! ### Spec-side definitions used to state the claims -/

/-- The claim's ℓ_max for commit advancement: the largest prefix length ℓ
(up to `log.len()`) such that at least `min_acks` peers have
`acked_length ≥ ℓ`. -/
def claimEllMax (s : RaftState) : Option Nat :=
  ((List.range (s.logs.length + 1)).filter
    (fun l => decide ((acks s s.nodes l).length ≥ (s.nodes.length + 1) / 2))).max?

/-- The claimed grant condition of `receive_vote_request`, evaluated after
any higher-term adoption: the request's term equals the (possibly adopted)
current term, the candidate's log is acceptable, and the (possibly
cleared) vote is free or already for the candidate. -/
def voteGrantCond (s : RaftState) (vr : VoteRequest) : Prop :=
  (vr.current_term =
    if vr.current_term > s.current_term then vr.current_term else s.current_term) ∧
  (vr.last_term > lastTermOf s.logs ∨
    (vr.last_term = lastTermOf s.logs ∧ vr.log_length ≥ s.logs.length)) ∧
  ((if vr.current_term > s.current_term then none else s.voted_for) = none ∨
    (if vr.current_term > s.current_term then none else s.voted_for) = some vr.node_id)

instance (s : RaftState) (vr : VoteRequest) : Decidable (voteGrantCond s vr) := by
  unfold voteGrantCond
  infer_instance

/-- The invariant behind the implicit claim C9: any node that is Candidate
or Leader has a `NodeId`. -/
def RoleInv (s : RaftState) : Prop :=
  (s.role = .Candidate ∨ s.role = .Leader) → s.id.isSome = true

/-- `t` agrees with `s` on every field except the log and the commit
length — the only fields `append_log` writes. -/
def SameCore (s t : RaftState) : Prop :=
  t.id = s.id ∧ t.current_term = s.current_term ∧ t.voted_for = s.voted_for ∧
  t.role = s.role ∧ t.current_leader = s.current_leader ∧
  t.votes_received = s.votes_received ∧ t.sent_length = s.sent_length ∧
  t.acked_length = s.acked_length ∧ t.nodes = s.nodes ∧
  t.last_term = s.last_term

/-! ### Concrete states and inputs used by individual claims -/

/-- A quiescent follower used as the base of the concrete scenarios. -/
def follower0 : RaftState :=
  { id := some 2, current_term := 2, voted_for := none,
    logs := [⟨1, [1]⟩, ⟨1, [153]⟩], commit_length := 0,
    role := .Follower, current_leader := none, votes_received := [],
    sent_length := [], acked_length := [], nodes := [], last_term := 1 }

/-- C1: follower B with log `[(1,0x01),(1,0x99)]` at term 2. -/
def c1State : RaftState := follower0

/-- C1: leader A's request `prefix_len=1, prefix_term=1, suffix=[(2,0x02)]`
at term 2 with `commit_length=0`. -/
def c1Req : LogRequest := ⟨1, 2, 1, 1, 0, [⟨2, [2]⟩]⟩

/-- C2: follower with one uncommitted entry `(1,0xAA)` at term 1. -/
def c2State : RaftState :=
  { follower0 with current_term := 1, logs := [⟨1, [170]⟩] }

/-- C3: leader at term 1 with log `[(1,0xAA)]`, registry `{2}`, and peer 2
having acked the whole one-entry log. -/
def c3State : RaftState :=
  { follower0 with id := some 1, current_term := 1, logs := [⟨1, [170]⟩],
                   role := .Leader, nodes := [2],
                   sent_length := [(2, 1)], acked_length := [(2, 1)] }

/-- C4: candidate at term 1 with an even registry of two peers and no
recorded votes. -/
def c4State : RaftState :=
  { follower0 with id := some 1, current_term := 1, logs := [],
                   role := .Candidate, nodes := [2, 3], last_term := 0 }

/-- C4: a granted vote from peer 2 at the candidate's term. -/
def c4Vote : VoteResponse := ⟨2, 1, true⟩

/-- C7: candidate 1 at term 1 with five peers and only its own vote. -/
def c7State : RaftState :=
  { follower0 with id := some 1, current_term := 1, logs := [],
                   role := .Candidate, nodes := [11, 12, 13, 14, 15],
                   votes_received := [1], last_term := 0 }

/-- C7: a granted vote from peer 11 at the candidate's term. -/
def c7Vote : VoteResponse := ⟨11, 1, true⟩

/-- C8: follower at term 1 with the single entry `(1,0x0A)`. -/
def c8State : RaftState :=
  { follower0 with current_term := 1, logs := [⟨1, [10]⟩] }

/-- C8: an accepted request from an honest leader whose log is
`[(1,0x0A),(1,0x0B)]` with `commit_length = 2` and `sent_length = 1` for
this follower. -/
def c8Req : LogRequest := ⟨1, 1, 1, 1, 2, [⟨1, [11]⟩]⟩

/-! ### Frame lemmas about the embedded handlers -/

theorem sameCore_refl (s : RaftState) : SameCore s s :=
  ⟨rfl, rfl, rfl, rfl, rfl, rfl, rfl, rfl, rfl, rfl⟩

theorem sameCore_trans {a b c : RaftState} (h1 : SameCore a b)
    (h2 : SameCore b c) : SameCore a c := by
  obtain ⟨e1, e2, e3, e4, e5, e6, e7, e8, e9, e10⟩ := h1
  obtain ⟨f1, f2, f3, f4, f5, f6, f7, f8, f9, f10⟩ := h2
  exact ⟨f1.trans e1, f2.trans e2, f3.trans e3, f4.trans e4, f5.trans e5,
    f6.trans e6, f7.trans e7, f8.trans e8, f9.trans e9, f10.trans e10⟩

theorem truncateStep_core (s : RaftState) (p : Nat) (suf : List Log) :
    SameCore s (truncateStep s p suf).1 := by
  unfold truncateStep push_logs
  repeat' split
  all_goals exact sameCore_refl s

theorem appendStep_core (s : RaftState) (p : Nat) (suf : List Log) :
    SameCore s (appendStep s p suf).1 := by
  unfold appendStep
  split
  · exact sameCore_refl s
  · exact sameCore_refl s

theorem commitStep_core (s : RaftState) (c : Nat) :
    SameCore s (commitStep s c).1 := by
  unfold commitStep
  repeat' split
  all_goals exact sameCore_refl s

theorem pushSuffixGo_status (suf : List Log) (i c : Nat) :
    (pushSuffixGo suf i c).2 ≠ .panicked := by
  induction c generalizing i with
  | zero => simp [pushSuffixGo]
  | succ c ih =>
    unfold pushSuffixGo
    rcases h : logGet suf i with _ | e
    · simp
    · simpa using ih (i + 1)

theorem pushCommitGo_status (logs : List Log) (i c : Nat) :
    (pushCommitGo logs i c).2 ≠ .panicked := by
  induction c generalizing i with
  | zero => simp [pushCommitGo]
  | succ c ih =>
    unfold pushCommitGo
    rcases h : logGet logs i with _ | e
    · simp
    · simpa using ih (i + 1)

theorem truncateStep_status (s : RaftState) (p : Nat) (suf : List Log) :
    (truncateStep s p suf).2 ≠ .panicked := by
  unfold truncateStep
  repeat' split
  all_goals simp

theorem appendStep_status (s : RaftState) (p : Nat) (suf : List Log) :
    (appendStep s p suf).2 ≠ .panicked := by
  unfold appendStep
  split
  · exact pushSuffixGo_status _ _ _
  · simp

theorem commitStep_status (s : RaftState) (c : Nat) :
    (commitStep s c).2.2 ≠ .panicked := by
  unfold commitStep
  split
  · have h := pushCommitGo_status s.logs s.commit_length (wsub c 1 - s.commit_length)
    rcases hp : pushCommitGo s.logs s.commit_length (wsub c 1 - s.commit_length) with
      ⟨ps, st⟩
    rw [hp] at h
    cases st
    · simp
    · simp
    · simp at h
  · simp

theorem append_log_core (s : RaftState) (p c : Nat) (suf : List Log) :
    SameCore s (append_log s p c suf).st := by
  unfold append_log
  have h0 := truncateStep_core s p suf
  rcases ht : truncateStep s p suf with ⟨s1, st1⟩
  rw [ht] at h0
  have h1 : SameCore s s1 := h0
  cases st1
  case ok =>
    dsimp only
    have g0 := appendStep_core s1 p suf
    rcases ha : appendStep s1 p suf with ⟨s2, st2⟩
    rw [ha] at g0
    have h2 : SameCore s1 s2 := g0
    cases st2
    case ok =>
      dsimp only
      have k0 := commitStep_core s2 c
      rcases hc : commitStep s2 c with ⟨s3, em, st3⟩
      rw [hc] at k0
      have h3 : SameCore s2 s3 := k0
      exact sameCore_trans (sameCore_trans h1 h2) h3
    case err => exact sameCore_trans h1 h2
    case panicked => exact sameCore_trans h1 h2
  case err => exact h1
  case panicked => exact h1

theorem append_log_status (s : RaftState) (p c : Nat) (suf : List Log) :
    (append_log s p c suf).status ≠ .panicked := by
  unfold append_log
  have h1 := truncateStep_status s p suf
  rcases ht : truncateStep s p suf with ⟨s1, st1⟩
  rw [ht] at h1
  cases st1
  case ok =>
    dsimp only
    have h2 := appendStep_status s1 p suf
    rcases ha : appendStep s1 p suf with ⟨s2, st2⟩
    rw [ha] at h2
    cases st2
    case ok =>
      dsimp only
      have h3 := commitStep_status s2 c
      rcases hc : commitStep s2 c with ⟨s3, em, st3⟩
      rw [hc] at h3
      simpa using h3
    case err => simp
    case panicked => simp at h2
  case err => simp
  case panicked => simp at h1

theorem update_logs_st (s : RaftState) (n : NodeId) :
    (update_logs s n).st = s := by
  unfold update_logs
  repeat' split
  all_goals rfl

theorem update_logs_status (s : RaftState) (n : NodeId)
    (h : s.id.isSome = true) : (update_logs s n).status ≠ .panicked := by
  unfold update_logs
  repeat' split
  all_goals simp_all

theorem forNodes_inv (f : RaftState → NodeId → HOut) (P : RaftState → Prop)
    (hf : ∀ s n, P s → (f s n).status ≠ .panicked ∧ P (f s n).st) :
    ∀ (ns : List NodeId) (s : RaftState), P s →
      (forNodes s ns f).status ≠ .panicked ∧ P (forNodes s ns f).st := by
  intro ns
  induction ns with
  | nil =>
    intro s hs
    exact ⟨by simp [forNodes], by simpa [forNodes] using hs⟩
  | cons n rest ih =>
    intro s hs
    have h := hf s n hs
    unfold forNodes
    split
    next s' msgs em heq =>
      rw [heq] at h
      have h2 := ih s' h.2
      split
      next s'' msgs2 em2 st heq2 =>
        rw [heq2] at h2
        exact ⟨h2.1, h2.2⟩
    next r hne =>
      exact h

theorem forNodes_st_id (f : RaftState → NodeId → HOut)
    (hf : ∀ s n, (f s n).st = s) :
    ∀ (ns : List NodeId) (s : RaftState), (forNodes s ns f).st = s := by
  intro ns
  induction ns with
  | nil => intro s; simp [forNodes]
  | cons n rest ih =>
    intro s
    unfold forNodes
    split
    next s' msgs em heq =>
      have h := hf s n
      rw [heq] at h
      split
      next s'' msgs2 em2 st heq2 =>
        have h2 := ih s'
        rw [heq2] at h2
        exact h2.trans h
    next r hne =>
      exact hf s n

theorem logReplyTo_frame (s : RaftState) (ldr : NodeId) (em : List Payload)
    (ack : Nat) (ok : Bool) :
    (logReplyTo s ldr em ack ok).st = s ∧
    (logReplyTo s ldr em ack ok).status = .ok ∧
    (logReplyTo s ldr em ack ok).emitted = em := by
  unfold logReplyTo
  rcases h : s.id with _ | n
  · exact ⟨rfl, rfl, rfl⟩
  · exact ⟨rfl, rfl, rfl⟩

theorem acceptLog_frame (s : RaftState) (lr : LogRequest) (ok : Bool) :
    (acceptLog s lr ok).status ≠ .panicked ∧
    SameCore s (acceptLog s lr ok).st := by
  unfold acceptLog
  have hst := append_log_status s lr.prefix_len lr.commit_length lr.suffix
  have hc := append_log_core s lr.prefix_len lr.commit_length lr.suffix
  rcases hap : append_log s lr.prefix_len lr.commit_length lr.suffix with
    ⟨s3, m3, e3, st3⟩
  rw [hap] at hst hc
  cases st3
  · dsimp only
    obtain ⟨h1, h2, h3⟩ :=
      logReplyTo_frame s3 lr.leader_id e3 (lr.prefix_len + lr.suffix.length) ok
    rw [h1, h2]
    exact ⟨fun hx => Status.noConfusion hx, hc⟩
  · exact ⟨fun hx => Status.noConfusion hx, hc⟩
  · exact ⟨hst, hc⟩

theorem leaderInitNode_inv : ∀ (t : RaftState) (n : NodeId),
    (t.role = Role.Leader ∧ t.id.isSome = true) →
    (leaderInitNode t n).status ≠ .panicked ∧
    ((leaderInitNode t n).st.role = Role.Leader ∧
      (leaderInitNode t n).st.id.isSome = true) := by
  intro t n h
  obtain ⟨h1, h2⟩ := h
  unfold leaderInitNode
  refine ⟨?_, ?_, ?_⟩
  · exact update_logs_status _ n h2
  · rw [update_logs_st]; exact h1
  · rw [update_logs_st]; exact h2

theorem forNodes_leader (ns : List NodeId) (t : RaftState)
    (h1 : t.role = Role.Leader) (h2 : t.id.isSome = true) :
    (forNodes t ns leaderInitNode).st.role = Role.Leader :=
  ((forNodes_inv leaderInitNode
    (fun u => u.role = Role.Leader ∧ u.id.isSome = true)
    leaderInitNode_inv ns t ⟨h1, h2⟩).2).1

theorem truncateStep_set_id (s : RaftState) (x : Option NodeId) (p : Nat)
    (suf : List Log) :
    truncateStep { s with id := x } p suf =
      ({ (truncateStep s p suf).1 with id := x },
        (truncateStep s p suf).2) := by
  unfold truncateStep push_logs sliceTo
  dsimp only
  repeat' split
  all_goals rfl

theorem appendStep_set_id (s : RaftState) (x : Option NodeId) (p : Nat)
    (suf : List Log) :
    appendStep { s with id := x } p suf =
      ({ (appendStep s p suf).1 with id := x }, (appendStep s p suf).2) := by
  unfold appendStep
  dsimp only
  split
  · rfl
  · rfl

theorem commitStep_set_id (s : RaftState) (x : Option NodeId) (c : Nat) :
    commitStep { s with id := x } c =
      ({ (commitStep s c).1 with id := x }, (commitStep s c).2.1,
        (commitStep s c).2.2) := by
  unfold commitStep
  dsimp only
  repeat' split
  all_goals rfl

theorem append_log_set_id (s : RaftState) (x : Option NodeId) (p c : Nat)
    (suf : List Log) :
    append_log { s with id := x } p c suf =
      ⟨{ (append_log s p c suf).st with id := x },
        (append_log s p c suf).msgs, (append_log s p c suf).emitted,
        (append_log s p c suf).status⟩ := by
  unfold append_log
  rw [truncateStep_set_id]
  rcases ht : truncateStep s p suf with ⟨s1, st1⟩
  dsimp only
  cases st1
  · dsimp only
    rw [appendStep_set_id]
    rcases ha : appendStep s1 p suf with ⟨s2, st2⟩
    dsimp only
    cases st2
    · dsimp only
      rw [commitStep_set_id]
    · rfl
    · rfl
  · rfl
  · rfl

theorem logReplyTo_id_none (s : RaftState) (ldr : NodeId)
    (em : List Payload) (ack : Nat) (ok : Bool) (hid : s.id = none) :
    logReplyTo s ldr em ack ok = ⟨s, [], em, .ok⟩ := by
  simp only [logReplyTo, hid]

theorem logReplyTo_id_some (s : RaftState) (ldr : NodeId)
    (em : List Payload) (ack : Nat) (ok : Bool) (n : NodeId)
    (hid : s.id = some n) :
    logReplyTo s ldr em ack ok =
      ⟨s, [.logResp (some ldr) ⟨n, s.current_term, ack, ok⟩], em, .ok⟩ := by
  simp only [logReplyTo, hid]

theorem acceptLog_set_id (s : RaftState) (x : Option NodeId)
    (lr : LogRequest) (ok : Bool) :
    (acceptLog { s with id := x } lr ok).st =
      { (acceptLog s lr ok).st with id := x } ∧
    (acceptLog { s with id := x } lr ok).emitted =
      (acceptLog s lr ok).emitted ∧
    (acceptLog { s with id := x } lr ok).status =
      (acceptLog s lr ok).status := by
  unfold acceptLog
  rw [append_log_set_id]
  rcases hap : append_log s lr.prefix_len lr.commit_length lr.suffix with
    ⟨s3, m3, e3, st3⟩
  dsimp only
  cases st3
  · obtain ⟨a1, a2, a3⟩ := logReplyTo_frame ({ s3 with id := x } : RaftState)
      lr.leader_id e3 (lr.prefix_len + lr.suffix.length) ok
    obtain ⟨b1, b2, b3⟩ := logReplyTo_frame s3
      lr.leader_id e3 (lr.prefix_len + lr.suffix.length) ok
    rw [a1, a2, a3, b1, b2, b3]
    exact ⟨rfl, rfl, rfl⟩
  · exact ⟨rfl, rfl, rfl⟩
  · exact ⟨rfl, rfl, rfl⟩

theorem acceptLog_msgs_none (s : RaftState) (lr : LogRequest) (ok : Bool)
    (hid : s.id = none) : (acceptLog s lr ok).msgs = [] := by
  unfold acceptLog
  have hc := append_log_core s lr.prefix_len lr.commit_length lr.suffix
  rcases hap : append_log s lr.prefix_len lr.commit_length lr.suffix with
    ⟨s3, m3, e3, st3⟩
  rw [hap] at hc
  cases st3
  · dsimp only
    rw [logReplyTo_id_none s3 _ _ _ _ (hc.1.trans hid)]
  · rfl
  · rfl

theorem acceptLog_msgs_some (s : RaftState) (lr : LogRequest) (ok : Bool)
    (n : NodeId) (hid : s.id = some n)
    (hst : (acceptLog s lr ok).status = .ok) :
    (acceptLog s lr ok).msgs =
      [.logResp (some lr.leader_id)
        ⟨n, s.current_term, lr.prefix_len + lr.suffix.length, ok⟩] := by
  unfold acceptLog at hst ⊢
  have hc := append_log_core s lr.prefix_len lr.commit_length lr.suffix
  rcases hap : append_log s lr.prefix_len lr.commit_length lr.suffix with
    ⟨s3, m3, e3, st3⟩
  rw [hap] at hc hst
  cases st3
  · dsimp only
    rw [logReplyTo_id_some s3 _ _ _ _ n (hc.1.trans hid), hc.2.1]
  · simp at hst
  · simp at hst

theorem roleInv_follower (t : RaftState) (h : t.role = Role.Follower) :
    RoleInv t := by
  intro hr
  rw [h] at hr
  rcases hr with h2 | h2 <;> cases h2

theorem roleInv_of_isSome (t : RaftState) (h : t.id.isSome = true) :
    RoleInv t :=
  fun _ => h

theorem receive_vote_request_inv (s : RaftState) (vr : VoteRequest)
    (h : RoleInv s) :
    (receive_vote_request s vr).status ≠ .panicked ∧
    RoleInv (receive_vote_request s vr).st := by
  unfold receive_vote_request
  rcases hn : s.id with _ | n
  · exact ⟨fun hx => Status.noConfusion hx, h⟩
  · dsimp only [reset_last_term]
    refine ⟨fun hx => Status.noConfusion hx, ?_⟩
    split <;> split <;> refine roleInv_of_isSome _ ?_ <;> simp [hn]

theorem commit_log_frame (s : RaftState) :
    (commit_log s).status ≠ .panicked ∧ (commit_log s).st.id = s.id ∧
    (commit_log s).st.role = s.role := by
  unfold commit_log
  dsimp only
  split
  · exact ⟨fun hx => Status.noConfusion hx, rfl, rfl⟩
  next m hm =>
    split
    · split
      · exact ⟨fun hx => Status.noConfusion hx, rfl, rfl⟩
      next e he =>
        split
        · have hp := pushCommitGo_status s.logs s.commit_length
            (wsub m 1 - s.commit_length)
          split
          next ps heq => exact ⟨fun hx => Status.noConfusion hx, rfl, rfl⟩
          next ps st hne heq =>
            rw [heq] at hp
            exact ⟨by simpa using hp, rfl, rfl⟩
        · exact ⟨fun hx => Status.noConfusion hx, rfl, rfl⟩
    · exact ⟨fun hx => Status.noConfusion hx, rfl, rfl⟩

theorem receive_vote_response_inv (s : RaftState) (vr : VoteResponse)
    (h : RoleInv s) :
    (receive_vote_response s vr).status ≠ .panicked ∧
    RoleInv (receive_vote_response s vr).st := by
  unfold receive_vote_response
  split
  next hcond =>
    have hsome : s.id.isSome = true := h (Or.inl hcond.1)
    obtain ⟨n, hn⟩ := Option.isSome_iff_exists.mp hsome
    dsimp only
    rw [hn]
    split
    next hth =>
      dsimp only
      have hinv := forNodes_inv leaderInitNode
        (fun u => u.role = Role.Leader ∧ u.id.isSome = true)
        leaderInitNode_inv s.nodes
        ({ s with id := some n,
                  votes_received := s.votes_received ++ [vr.node_id],
                  role := Role.Leader, current_leader := some n } : RaftState)
        ⟨rfl, rfl⟩
      exact ⟨hinv.1, roleInv_of_isSome _ hinv.2.2⟩
    next hth =>
      exact ⟨fun hx => Status.noConfusion hx, roleInv_of_isSome _ rfl⟩
  next hncond =>
    split
    next hgt =>
      exact ⟨fun hx => Status.noConfusion hx, roleInv_follower _ rfl⟩
    next hngt => exact ⟨fun hx => Status.noConfusion hx, h⟩

theorem receive_log_request_inv (s : RaftState) (lr : LogRequest)
    (h : RoleInv s) :
    (receive_log_request s lr).status ≠ .panicked ∧
    RoleInv (receive_log_request s lr).st := by
  unfold receive_log_request
  dsimp only
  by_cases h1 : lr.current_term > s.current_term
  · rw [if_pos h1]
    dsimp only
    rw [if_pos rfl]
    dsimp only
    split
    next hcond =>
      obtain ⟨hs, hc⟩ := acceptLog_frame
        ({ s with current_term := lr.current_term, voted_for := none,
                  role := Role.Follower, current_leader := some lr.leader_id } :
          RaftState) lr (prefixOk s.logs lr)
      exact ⟨hs, roleInv_follower _ hc.2.2.2.1⟩
    next hcond =>
      obtain ⟨h1', h2', h3'⟩ := logReplyTo_frame
        ({ s with current_term := lr.current_term, voted_for := none,
                  role := Role.Follower, current_leader := some lr.leader_id } :
          RaftState) lr.leader_id [] 0 (prefixOk s.logs lr)
      rw [h1', h2']
      exact ⟨fun hx => Status.noConfusion hx, roleInv_follower _ rfl⟩
  · rw [if_neg h1]
    try dsimp only
    by_cases h2 : lr.current_term = s.current_term
    · rw [if_pos h2]
      dsimp only
      split
      next hcond =>
        obtain ⟨hs, hc⟩ := acceptLog_frame
          ({ s with role := Role.Follower,
                    current_leader := some lr.leader_id } : RaftState) lr
          (prefixOk s.logs lr)
        exact ⟨hs, roleInv_follower _ hc.2.2.2.1⟩
      next hcond =>
        obtain ⟨h1', h2', h3'⟩ := logReplyTo_frame
          ({ s with role := Role.Follower,
                    current_leader := some lr.leader_id } : RaftState)
          lr.leader_id [] 0 (prefixOk s.logs lr)
        rw [h1', h2']
        exact ⟨fun hx => Status.noConfusion hx, roleInv_follower _ rfl⟩
    · rw [if_neg h2]
      try dsimp only
      rw [if_neg (fun hc => h2 hc.1)]
      obtain ⟨h1', h2', h3'⟩ := logReplyTo_frame s lr.leader_id [] 0
        (prefixOk s.logs lr)
      rw [h1', h2']
      exact ⟨fun hx => Status.noConfusion hx, h⟩

theorem receive_log_response_inv (s : RaftState) (lr : LogResponse)
    (h : RoleInv s) :
    (receive_log_response s lr).status ≠ .panicked ∧
    RoleInv (receive_log_response s lr).st := by
  unfold receive_log_response
  split
  next hcond =>
    have hsome : s.id.isSome = true := h (Or.inr hcond.2)
    dsimp only
    split
    · exact ⟨fun hx => Status.noConfusion hx, h⟩
    · obtain ⟨hcs, hci, hcr⟩ := commit_log_frame
        ({ s with
            sent_length := mapInsert s.sent_length lr.node_id lr.ack,
            acked_length := mapInsert s.acked_length lr.node_id lr.ack } :
          RaftState)
      refine ⟨hcs, ?_⟩
      intro hr
      rw [hci]
      exact hsome
    · split
      · exact ⟨fun hx => Status.noConfusion hx, h⟩
      next sent heq2 =>
        split
        · refine ⟨update_logs_status
            ({ s with sent_length :=
                mapInsert s.sent_length lr.node_id (sent - 1) } : RaftState)
            lr.node_id hsome, ?_⟩
          rw [update_logs_st]
          exact fun _ => hsome
        · exact ⟨fun hx => Status.noConfusion hx, h⟩
  next hncond =>
    split
    · exact ⟨fun hx => Status.noConfusion hx, roleInv_follower _ rfl⟩
    · exact ⟨fun hx => Status.noConfusion hx, h⟩

theorem updateLogsNode_inv (u : RaftState) (n : NodeId)
    (hu : u.id.isSome = true) :
    (update_logs u n).status ≠ .panicked ∧
    (update_logs u n).st.id.isSome = true := by
  refine ⟨update_logs_status u n hu, ?_⟩
  rw [update_logs_st]
  exact hu

theorem forNodes_update_inv (ns : List NodeId) (t : RaftState)
    (ht : t.id.isSome = true) :
    (forNodes t ns (fun s n => update_logs s n)).status ≠ .panicked ∧
    (forNodes t ns (fun s n => update_logs s n)).st.id.isSome = true :=
  forNodes_inv (fun s n => update_logs s n) (fun u => u.id.isSome = true)
    (fun u n hu => updateLogsNode_inv u n hu) ns t ht

theorem broadcast_msg_inv (s : RaftState) (p : Payload) (h : RoleInv s) :
    (broadcast_msg s p).status ≠ .panicked ∧
    RoleInv (broadcast_msg s p).st := by
  unfold broadcast_msg
  split
  next hlead =>
    have hsome : s.id.isSome = true := h (Or.inr hlead)
    obtain ⟨n, hn⟩ := Option.isSome_iff_exists.mp hsome
    dsimp only [push_log]
    rw [hn]
    dsimp only
    have hinv := forNodes_update_inv s.nodes
      ({ s with id := some n,
                logs := s.logs ++ [(⟨s.current_term, p⟩ : Log)],
                acked_length := mapInsert s.acked_length n
                  (s.logs ++ [(⟨s.current_term, p⟩ : Log)]).length } :
        RaftState) rfl
    exact ⟨hinv.1, roleInv_of_isSome _ hinv.2⟩
  next =>
    exact ⟨fun hx => Status.noConfusion hx, h⟩

theorem send_heartbeat_inv (s : RaftState) (h : RoleInv s) :
    (send_heartbeat s).status ≠ .panicked ∧
    RoleInv (send_heartbeat s).st := by
  unfold send_heartbeat
  split
  next hlead =>
    have hsome : s.id.isSome = true := h (Or.inr hlead)
    have hinv := forNodes_update_inv s.nodes s hsome
    exact ⟨hinv.1, roleInv_of_isSome _ hinv.2⟩
  next => exact ⟨fun hx => Status.noConfusion hx, h⟩

theorem send_vote_request_inv (s : RaftState) (h : RoleInv s) :
    (send_vote_request s).status ≠ .panicked ∧
    RoleInv (send_vote_request s).st := by
  unfold send_vote_request
  rcases hn : s.id with _ | n
  · exact ⟨fun hx => Status.noConfusion hx, h⟩
  · dsimp only [reset_last_term]
    exact ⟨fun hx => Status.noConfusion hx, roleInv_of_isSome _ rfl⟩

/-! ### Claim theorems -/

/-- C1: the claim says an accepted `LogRequest` leaves the log equal to the
first `prefix_len` entries followed by the entire suffix, and concretely
that follower B ends with `[(1,0x01),(2,0x02)]`.  In the code the append
loop runs `for i in (log.len() - prefix_len)..(suffix.len() - 1)` and so
drops the final suffix entry: B truncates to `[(1,0x01)]`, appends
nothing, and still replies `ok` with `ack = 2`. -/
theorem c1_append_drops_last_suffix_entry :
    (receive_log_request c1State c1Req).st.logs = [⟨1, [1]⟩] ∧
    (receive_log_request c1State c1Req).msgs =
      [.logResp (some 1) ⟨2, 2, 2, true⟩] ∧
    sliceTo c1State.logs c1Req.prefix_len ++ c1Req.suffix =
      [⟨1, [1]⟩, ⟨2, [2]⟩] ∧
    (receive_log_request c1State c1Req).st.logs ≠
      sliceTo c1State.logs c1Req.prefix_len ++ c1Req.suffix := by
  decide

/-- C2: the claim says every index in `[commit_length, commit_length')` —
including `commit_length' - 1` — is emitted on the commits stream before
`commit_length` is advanced.  In the code the emission loop runs
`for i in commit_length..(leader_commit - 1)`, so advancing from 0 to 1
over the one-entry log `[(1,0xAA)]` emits nothing at all while setting
`commit_length := 1`. -/
theorem c2_commit_emission_misses_final_index :
    (append_log c2State 1 1 []).st.commit_length = 1 ∧
    (append_log c2State 1 1 []).emitted = [] ∧
    (append_log c2State 1 1 []).emitted ≠ [[170]] := by
  decide

/-- C3: the claim says commit advancement selects the largest prefix
length ℓ with a quorum of acks and commits it; with log `[(1,0xAA)]` and
peer 2 having acked length 1 that ℓ_max is 1 and `commit_length` should
become 1.  In the code `ready` collects the 0-based `enumerate()` indices
instead of prefix lengths, so `max_ready = 0` and nothing is committed. -/
theorem c3_ready_set_uses_indices_not_lengths :
    claimEllMax c3State = some 1 ∧
    (logGet c3State.logs 0).map (·.term) = some c3State.current_term ∧
    (commit_log c3State).st.commit_length = 0 ∧
    (commit_log c3State).emitted = [] := by
  decide

/-- C4 counterexample: with an even registry of `N = 2` peers the claimed
threshold is `⌈(N+1)/2⌉ = 2` votes, but the code's integer division
`(N + 1) / 2` yields 1, so a candidate becomes Leader after a single
granted vote. -/
theorem c4_even_registry_single_vote_elects :
    c4State.nodes.length = 2 ∧
    (receive_vote_response c4State c4Vote).st.votes_received.length = 1 ∧
    (receive_vote_response c4State c4Vote).st.votes_received.length <
      (c4State.nodes.length + 2) / 2 ∧
    (receive_vote_response c4State c4Vote).st.role = .Leader := by
  decide

/-- C4 amended: a Candidate that processes a granted `VoteResponse` at its
own term becomes Leader exactly when the number of collected votes reaches
`(N + 1) / 2` in integer (floor) division — equivalently `⌈N/2⌉` — where
`N` is the registry size; for even `N` this is `N/2`, one vote short of
the claimed `⌈(N+1)/2⌉ = N/2 + 1`. -/
theorem c4_leader_iff_floor_threshold (s : RaftState) (vr : VoteResponse)
    (n : NodeId) (hrole : s.role = .Candidate)
    (hterm : vr.current_term = s.current_term) (hok : vr.ok = true)
    (hid : s.id = some n) :
    ((receive_vote_response s vr).st.role = .Leader ↔
      s.votes_received.length + 1 ≥ (s.nodes.length + 1) / 2) := by
  unfold receive_vote_response
  rw [if_pos ⟨hrole, hterm, hok⟩]
  dsimp only
  by_cases hth : s.votes_received.length + 1 ≥ (s.nodes.length + 1) / 2
  · rw [if_pos (by simpa using hth)]
    have hid' : ({ s with votes_received := s.votes_received ++ [vr.node_id] } :
        RaftState).id = some n := hid
    rw [hid']
    dsimp only
    have hrl := forNodes_leader s.nodes
      ({ s with id := some n,
                votes_received := s.votes_received ++ [vr.node_id],
                role := Role.Leader, current_leader := some n } : RaftState)
      rfl (by simp)
    exact iff_of_true hrl hth
  · rw [if_neg (by simpa using hth)]
    dsimp only
    rw [hrole]
    simp [hth]

/-- C4 amended, witnessed at the concrete even-registry scenario. -/
theorem c4_leader_iff_floor_threshold_witness :
    ((receive_vote_response c4State c4Vote).st.role = .Leader ↔
      c4State.votes_received.length + 1 ≥ (c4State.nodes.length + 1) / 2) :=
  c4_leader_iff_floor_threshold c4State c4Vote 1 rfl rfl rfl rfl

/-- C6: any inbound protocol message whose term strictly exceeds the
node's current term (for a `VoteRequest`, on a node with a `NodeId`)
leaves the node at the message's term, in the Follower role, and with the
old-term vote cleared — `voted_for` is `none`, or (only for a
`VoteRequest`) re-granted to the candidate in the new term. -/
theorem c6_higher_term_message_steps_down (s : RaftState) (e : Event)
    (t : Nat) (hterm : eventTerm e = some t) (hgt : t > s.current_term)
    (hid : ∀ vr, e = Event.voteReq vr → s.id.isSome = true) :
    (step s e).st.current_term = t ∧ (step s e).st.role = .Follower ∧
    ((step s e).st.voted_for = none ∨
      ∃ vr, e = Event.voteReq vr ∧
        (step s e).st.voted_for = some vr.node_id) := by
  cases e
  case voteReq vr =>
    simp only [eventTerm, Option.some.injEq] at hterm
    subst hterm
    obtain ⟨n, hn⟩ := Option.isSome_iff_exists.mp (hid vr rfl)
    simp only [step]
    unfold receive_vote_request
    rw [hn]
    dsimp only [reset_last_term]
    rw [if_pos hgt]
    dsimp only
    split
    · exact ⟨rfl, rfl, Or.inr ⟨vr, rfl, rfl⟩⟩
    · exact ⟨rfl, rfl, Or.inl rfl⟩
  case voteResp vr =>
    simp only [eventTerm, Option.some.injEq] at hterm
    subst hterm
    simp only [step]
    unfold receive_vote_response
    rw [if_neg (by rintro ⟨h1, h2, h3⟩; omega)]
    rw [if_pos hgt]
    exact ⟨rfl, rfl, Or.inl rfl⟩
  case logReq lr =>
    simp only [eventTerm, Option.some.injEq] at hterm
    subst hterm
    simp only [step]
    unfold receive_log_request
    dsimp only
    rw [if_pos hgt]
    dsimp only
    rw [if_pos rfl]
    dsimp only
    by_cases hok : prefixOk s.logs lr = true
    · rw [if_pos ⟨rfl, hok⟩]
      obtain ⟨hst, hcc⟩ := acceptLog_frame
        ({ s with current_term := lr.current_term, voted_for := none,
                  role := Role.Follower, current_leader := some lr.leader_id } :
          RaftState) lr (prefixOk s.logs lr)
      exact ⟨hcc.2.1, hcc.2.2.2.1, Or.inl hcc.2.2.1⟩
    · rw [if_neg (by rintro ⟨h1, h2⟩; exact hok h2)]
      unfold logReplyTo
      rcases h3 : s.id with _ | m
      · exact ⟨rfl, rfl, Or.inl rfl⟩
      · exact ⟨rfl, rfl, Or.inl rfl⟩
  case logResp lr =>
    simp only [eventTerm, Option.some.injEq] at hterm
    subst hterm
    simp only [step]
    unfold receive_log_response
    rw [if_neg (by rintro ⟨h1, h2⟩; omega)]
    rw [if_pos hgt]
    exact ⟨rfl, rfl, Or.inl rfl⟩
  case submit p => simp [eventTerm] at hterm
  case timer => simp [eventTerm] at hterm

/-- C6 witness: leader A at term 3 receives a `VoteRequest` with term 5
(the spec's scenario 5) and steps down. -/
theorem c6_higher_term_witness :
    (step { follower0 with id := some 1, current_term := 3,
                           role := .Leader, voted_for := some 1 }
        (Event.voteReq ⟨7, 5, 2, 1⟩)).st.current_term = 5 ∧
    (step { follower0 with id := some 1, current_term := 3,
                           role := .Leader, voted_for := some 1 }
        (Event.voteReq ⟨7, 5, 2, 1⟩)).st.role = .Follower ∧
    ((step { follower0 with id := some 1, current_term := 3,
                            role := .Leader, voted_for := some 1 }
        (Event.voteReq ⟨7, 5, 2, 1⟩)).st.voted_for = none ∨
      ∃ vr, Event.voteReq (⟨7, 5, 2, 1⟩ : VoteRequest) = Event.voteReq vr ∧
        (step { follower0 with id := some 1, current_term := 3,
                               role := .Leader, voted_for := some 1 }
          (Event.voteReq ⟨7, 5, 2, 1⟩)).st.voted_for = some vr.node_id) :=
  c6_higher_term_message_steps_down
    { follower0 with id := some 1, current_term := 3,
                     role := .Leader, voted_for := some 1 }
    (Event.voteReq ⟨7, 5, 2, 1⟩) 5 rfl (by decide) (fun _ _ => rfl)

/-- C7: the claim says `votes_received` behaves as a set, counting a
repeated granted `VoteResponse` at most once.  The code stores a `Vec` and
pushes unconditionally: processing voter 11's grant twice yields
`votes_received = [1, 11, 11]`, which reaches the code's threshold of 3
for five peers, and the candidate becomes Leader on only two distinct
voters. -/
theorem c7_duplicate_vote_counted_twice :
    (receive_vote_response c7State c7Vote).st.votes_received = [1, 11] ∧
    (receive_vote_response c7State c7Vote).st.role = .Candidate ∧
    (receive_vote_response
      (receive_vote_response c7State c7Vote).st c7Vote).st.votes_received =
      [1, 11, 11] ∧
    (receive_vote_response
      (receive_vote_response c7State c7Vote).st c7Vote).st.role = .Leader := by
  decide

/-- C5: for a node with a `NodeId`, `receive_vote_request` always sends one
`VoteResponse` to the candidate carrying the node's (possibly adopted)
current term, the response's ok bit is set exactly when the claim's grant
condition (after any higher-term adoption) holds, and on grant the vote is
recorded for the candidate. -/
theorem c5_vote_grant_iff (s : RaftState) (vr : VoteRequest) (n : NodeId)
    (hid : s.id = some n) :
    ((receive_vote_request s vr).st.current_term =
      (if vr.current_term > s.current_term then vr.current_term
       else s.current_term)) ∧
    ((receive_vote_request s vr).msgs =
      [.voteResp (some vr.node_id)
        ⟨n,
          (if vr.current_term > s.current_term then vr.current_term
           else s.current_term),
          decide (voteGrantCond s vr)⟩]) ∧
    (voteGrantCond s vr →
      (receive_vote_request s vr).st.voted_for = some vr.node_id) := by
  unfold receive_vote_request
  rw [hid]
  dsimp only [reset_last_term]
  by_cases hgt : vr.current_term > s.current_term
  · rw [if_pos hgt]
    by_cases hlog : vr.last_term > lastTermOf s.logs ∨
        (vr.last_term = lastTermOf s.logs ∧ vr.log_length ≥ s.logs.length)
    · simp [voteGrantCond, hgt, hlog, apply_ite]
    · simp [voteGrantCond, hgt, hlog, apply_ite]
  · rw [if_neg hgt]
    by_cases hteq : vr.current_term = s.current_term
    · by_cases hlog : vr.last_term > lastTermOf s.logs ∨
          (vr.last_term = lastTermOf s.logs ∧ vr.log_length ≥ s.logs.length)
      · rcases hvf : s.voted_for with _ | v
        · simp [voteGrantCond, hgt, hteq, hlog, hvf, apply_ite]
        · by_cases hveq : v = vr.node_id
          · simp [voteGrantCond, hgt, hteq, hlog, hvf, hveq, apply_ite]
          · simp [voteGrantCond, hgt, hteq, hlog, hvf, hveq, apply_ite]
      · simp [voteGrantCond, hgt, hteq, hlog, apply_ite]
    · simp [voteGrantCond, hgt, hteq, apply_ite]

/-- C5 witness: a fresh follower (no vote cast, empty last term) granting a
candidate with an up-to-date log. -/
theorem c5_vote_grant_iff_witness :
    ((receive_vote_request follower0 ⟨7, 2, 2, 1⟩).st.current_term =
      (if (2 : Nat) > follower0.current_term then 2
       else follower0.current_term)) ∧
    ((receive_vote_request follower0 ⟨7, 2, 2, 1⟩).msgs =
      [.voteResp (some 7)
        ⟨2,
          (if (2 : Nat) > follower0.current_term then 2
           else follower0.current_term),
          decide (voteGrantCond follower0 ⟨7, 2, 2, 1⟩)⟩]) ∧
    (voteGrantCond follower0 ⟨7, 2, 2, 1⟩ →
      (receive_vote_request follower0 ⟨7, 2, 2, 1⟩).st.voted_for = some 7) :=
  c5_vote_grant_iff follower0 ⟨7, 2, 2, 1⟩ 2 rfl

/-- C9: the invariant "Candidate or Leader implies the node has a NodeId"
is preserved by every operation of the state machine, and under it no
operation reaches an `unwrap` of `self.id` on a `None` (the `panicked`
outcome): elections only start on nodes with an id, leadership is only
reached from candidacy, and every leader-side `unwrap` (payload append,
vote tallying, `update_logs`) therefore succeeds. -/
theorem c9_no_candidate_leader_unwrap_panic (s : RaftState) (e : Event)
    (h : RoleInv s) :
    (step s e).status ≠ .panicked ∧ RoleInv (step s e).st := by
  cases e
  case voteReq vr => exact receive_vote_request_inv s vr h
  case voteResp vr => exact receive_vote_response_inv s vr h
  case logReq lr => exact receive_log_request_inv s lr h
  case logResp lr => exact receive_log_response_inv s lr h
  case submit p => exact broadcast_msg_inv s p h
  case timer =>
    simp only [step]
    split
    · exact send_heartbeat_inv s h
    · exact send_vote_request_inv s h

/-- C9 witness: a follower with an id whose election timer fires. -/
theorem c9_no_candidate_leader_unwrap_panic_witness :
    (step follower0 Event.timer).status ≠ .panicked ∧
    RoleInv (step follower0 Event.timer).st :=
  c9_no_candidate_leader_unwrap_panic follower0 Event.timer (fun _ => rfl)

/-- C8: the claim says `commit_length ≤ log.len()` is preserved by
`append_log` for every accepted `LogRequest`.  An honest leader with log
`[(1,0x0A),(1,0x0B)]`, `commit_length = 2` and `sent_length = 1` for this
follower sends an accepted request; because the append loop drops the
final suffix entry the follower's log stays at length 1, yet the commit
step still sets `commit_length := 2`. -/
theorem c8_commit_length_exceeds_log_length :
    (receive_log_request c8State c8Req).status = .ok ∧
    (receive_log_request c8State c8Req).st.commit_length = 2 ∧
    (receive_log_request c8State c8Req).st.logs.length = 1 := by
  decide

/-- C10: a listener (no `NodeId`) that receives a `LogRequest` with
matching term and a valid prefix runs `append_log` exactly like a voting
node — same resulting log, commit length, emitted commit payloads and
error status — and only the `LogResponse` reply is suppressed; the voting
node's run additionally sends exactly that reply when it completes without
error. -/
theorem c10_listener_applies_append_like_voter (s : RaftState) (n : NodeId)
    (lr : LogRequest) (hterm : lr.current_term = s.current_term)
    (hok : prefixOk s.logs lr = true) :
    (receive_log_request { s with id := none } lr).st =
      { (receive_log_request { s with id := some n } lr).st with id := none } ∧
    (receive_log_request { s with id := none } lr).emitted =
      (receive_log_request { s with id := some n } lr).emitted ∧
    (receive_log_request { s with id := none } lr).status =
      (receive_log_request { s with id := some n } lr).status ∧
    (receive_log_request { s with id := none } lr).msgs = [] ∧
    ((receive_log_request { s with id := some n } lr).status = .ok →
      (receive_log_request { s with id := some n } lr).msgs =
        [.logResp (some lr.leader_id)
          ⟨n, s.current_term, lr.prefix_len + lr.suffix.length, true⟩]) := by
  have hrun : ∀ x : Option NodeId,
      receive_log_request { s with id := x } lr =
        acceptLog ({ s with id := x, role := Role.Follower,
                            current_leader := some lr.leader_id } :
          RaftState) lr true := by
    intro x
    unfold receive_log_request
    dsimp only
    rw [if_neg (show ¬lr.current_term > s.current_term from by
      rw [hterm]; exact lt_irrefl _)]
    dsimp only
    rw [if_pos hterm]
    dsimp only
    rw [hok]
    rw [if_pos ⟨hterm, rfl⟩]
  rw [hrun none, hrun (some n)]
  obtain ⟨e1, e2, e3⟩ := acceptLog_set_id
    ({ s with role := Role.Follower,
              current_leader := some lr.leader_id } : RaftState) none lr true
  obtain ⟨f1, f2, f3⟩ := acceptLog_set_id
    ({ s with role := Role.Follower,
              current_leader := some lr.leader_id } : RaftState) (some n) lr
    true
  refine ⟨?_, ?_, ?_, ?_, ?_⟩
  · rw [e1, f1]
  · rw [e2, f2]
  · rw [e3, f3]
  · exact acceptLog_msgs_none _ lr true rfl
  · intro hst
    exact acceptLog_msgs_some
      ({ s with id := some n, role := Role.Follower,
                current_leader := some lr.leader_id } : RaftState) lr true n
      rfl hst

/-- C10 witness: the listener variant of the truncation scenario — term
matches and the prefix check passes. -/
theorem c10_listener_applies_append_like_voter_witness :
    (receive_log_request { follower0 with id := none } c1Req).st =
      { (receive_log_request { follower0 with id := some 9 } c1Req).st with
          id := none } ∧
    (receive_log_request { follower0 with id := none } c1Req).emitted =
      (receive_log_request { follower0 with id := some 9 } c1Req).emitted ∧
    (receive_log_request { follower0 with id := none } c1Req).status =
      (receive_log_request { follower0 with id := some 9 } c1Req).status ∧
    (receive_log_request { follower0 with id := none } c1Req).msgs = [] ∧
    ((receive_log_request { follower0 with id := some 9 } c1Req).status =
        .ok →
      (receive_log_request { follower0 with id := some 9 } c1Req).msgs =
        [.logResp (some c1Req.leader_id)
          ⟨9, follower0.current_term,
            c1Req.prefix_len + c1Req.suffix.length, true⟩]) :=
  c10_listener_applies_append_like_voter follower0 9 c1Req rfl (by decide)

end Darkfi
